import Mathlib

/- Shallow embedding of the InStory interactive-comic reader and editor logic.

   Sources embedded:
   - src/src/app/story/[id]/StoryReader.tsx   (reader state machine, audio volume,
     text overlay resolution, clip-path generation)
   - src/src/components/TextEditor.tsx        (per-language text override resolution)
   - src/src/app/layout.tsx                   (reading-order sort)
   - src/src/app/panel/flow/[storyId]/StoryFlowEditor.tsx (flow-editor node layout)

   Modelling conventions: JS numbers are modelled as ℚ where fractional arithmetic
   occurs (panel centers, volumes, positions) and as ℤ/ℕ where the code only ever
   handles integral values (pixel fields interpolated into strings, array indices).
   JS `Set` is a `Finset ℕ`, JS `null`/`undefined` is `Option`, JS objects used as
   string-keyed maps are association lists with first-match `List.lookup`
   (spread `{...a, ...b}` therefore prepends `b`'s entries). React state updates
   inside one handler are collapsed into a single pure state transition. -/

namespace InStory

/- ===== Reader data model (StoryReader.tsx) ===== -/

/-- Panel row as the reader sees it: only the ordering index matters
    for navigation (StoryReader.tsx `sortedPanels`). -/
structure RPanel where
  id : String
  order_index : ℤ
deriving DecidableEq

/-- Scene row: id, image URL, `is_start_scene` flag and its panels. -/
structure RScene where
  id : String
  image_url : String
  is_start_scene : Bool
  panels : List RPanel
deriving DecidableEq

/-- Choice row: directed edge between scenes; `choice_text` is nullable,
    a null or blank text denotes the unconditional "normal flow" edge. -/
structure RChoice where
  from_scene_id : String
  to_scene_id : String
  choice_text : Option String
deriving DecidableEq

/-- History entry pushed before a scene change (StoryReader.tsx `HistoryEntry`). -/
structure HistoryEntry where
  sceneId : String
  panelIndex : ℕ
  revealedPanels : Finset ℕ
deriving DecidableEq

/-- The reader's navigation state: the React `useState` cells of `StoryReader`
    that take part in `goNext` navigation. -/
structure ReaderState where
  currentSceneId : String
  currentPanelIndex : ℕ
  revealedPanels : Finset ℕ
  history : List HistoryEntry
  showChoices : Bool
  storyEnded : Bool
  isSceneTransitioning : Bool
deriving DecidableEq

/-- Stable insertion step: insert `x` before the first `y` with `le x y`.
    Together with `stableSort` this models JS `Array.prototype.sort` with a
    numeric comparator `c` (take `le a b = (c a b ≤ 0)`): for a consistent
    comparator the result is the unique stable order, which is what the
    ECMAScript spec guarantees. -/
def stableInsert {α : Type} (le : α → α → Bool) (x : α) : List α → List α
  | [] => [x]
  | y :: ys => if le x y then x :: y :: ys else y :: stableInsert le x ys

/-- Stable insertion sort modelling `[...arr].sort(comparator)`. -/
def stableSort {α : Type} (le : α → α → Bool) (l : List α) : List α :=
  l.foldr (stableInsert le) []

/-- StoryReader.tsx: `story.scenes?.find(s => s.is_start_scene) || story.scenes?.[0]`. -/
def startSceneOf (scenes : List RScene) : Option RScene :=
  (scenes.find? (fun s => s.is_start_scene)).orElse (fun _ => scenes.head?)

/-- Initial reader state (the `useState` initialisers of `StoryReader`):
    scene id `startScene?.id || ''`, panel index 0, revealed set `{0}`,
    empty history, no overlays, not ended, not transitioning. -/
def initState (scenes : List RScene) : ReaderState where
  currentSceneId := ((startSceneOf scenes).map (fun s => s.id)).getD ""
  currentPanelIndex := 0
  revealedPanels := {0}
  history := []
  showChoices := false
  storyEnded := false
  isSceneTransitioning := false

/-- StoryReader.tsx: `story.scenes?.find(s => s.id === currentSceneId)`. -/
def currentSceneOf (scenes : List RScene) (st : ReaderState) : Option RScene :=
  scenes.find? (fun s => s.id == st.currentSceneId)

/-- StoryReader.tsx `sortedPanels`: panels of the current scene sorted by
    `order_index` ascending (`.sort((a, b) => a.order_index - b.order_index) || []`). -/
def sortedPanelsOf (scenes : List RScene) (st : ReaderState) : List RPanel :=
  match currentSceneOf scenes st with
  | some sc => stableSort (fun a b => decide (a.order_index ≤ b.order_index)) sc.panels
  | none => []

/-- StoryReader.tsx `currentPanel`: `sortedPanels[currentPanelIndex]`. -/
def currentPanelOf (scenes : List RScene) (st : ReaderState) : Option RPanel :=
  (sortedPanelsOf scenes st)[st.currentPanelIndex]?

/-- JS truthy-text test `c.choice_text && c.choice_text.trim() !== ''`
    used to select labeled decision choices. -/
def hasChoiceText (t : Option String) : Bool :=
  match t with
  | none => false
  | some s => !(s == "") && !(s.trim == "")

/-- JS blank-text test `!c.choice_text || c.choice_text.trim() === ''`
    used to select the unconditional normal-flow choice. -/
def isBlankChoiceText (t : Option String) : Bool :=
  match t with
  | none => true
  | some s => s == "" || s.trim == ""

/-- StoryReader.tsx `sceneChoices`: outgoing choices of the current scene
    that carry real (non-blank) text. -/
def sceneChoicesOf (choices : List RChoice) (st : ReaderState) : List RChoice :=
  choices.filter (fun c => c.from_scene_id == st.currentSceneId && hasChoiceText c.choice_text)

/-- StoryReader.tsx `normalFlowConnection`: first outgoing choice whose text is
    null or blank. -/
def normalFlowConnectionOf (choices : List RChoice) (st : ReaderState) : Option RChoice :=
  choices.find? (fun c => c.from_scene_id == st.currentSceneId && isBlankChoiceText c.choice_text)

/-- StoryReader.tsx `isEndingScene`: no outgoing choice at all. -/
def isEndingSceneOf (choices : List RChoice) (st : ReaderState) : Bool :=
  !(choices.any (fun c => c.from_scene_id == st.currentSceneId))

/-- StoryReader.tsx `isAtLastPanel`: `currentPanelIndex === sortedPanels.length - 1`.
    The comparison is over JS numbers, so it is taken in ℤ (for an empty panel
    list the right-hand side is -1 and the test is false, as in JS). -/
def isAtLastPanelOf (scenes : List RScene) (st : ReaderState) : Bool :=
  decide ((st.currentPanelIndex : ℤ) = (sortedPanelsOf scenes st).length - 1)

/-- StoryReader.tsx `isAtDecisionPoint`: `isAtLastPanel && sceneChoices.length > 0`. -/
def isAtDecisionPointOf (scenes : List RScene) (choices : List RChoice)
    (st : ReaderState) : Bool :=
  isAtLastPanelOf scenes st && !(sceneChoicesOf choices st).isEmpty

/-- StoryReader.tsx `changeSceneSmoothly`: the 150 ms fade timer is collapsed,
    so the model state is the state after the delayed updates have been applied
    and the transition flag has been dropped again.  A missing
    `newRevealedPanels` argument resets the revealed set to `{0}` (the
    scene-change effect at lines 518-521 performs the same reset). -/
def changeSceneSmoothly (st : ReaderState) (newSceneId : String) (newPanelIndex : ℕ)
    (newRevealedPanels : Option (Finset ℕ)) : ReaderState :=
  { st with
    currentSceneId := newSceneId
    currentPanelIndex := newPanelIndex
    revealedPanels := newRevealedPanels.getD {0}
    isSceneTransitioning := false }

/-- StoryReader.tsx `goNext` (lines 813-851), with the UI-only
    `resetControlsTimer()` call dropped.  The branches appear in source order:
    overlay/terminal/transition guard, decision point, in-scene advance,
    last panel (story end or normal-flow scene change), silent fall-through. -/
def goNext (scenes : List RScene) (choices : List RChoice) (st : ReaderState) : ReaderState :=
  if st.showChoices || st.storyEnded || st.isSceneTransitioning then st
  else if isAtDecisionPointOf scenes choices st then { st with showChoices := true }
  else if (st.currentPanelIndex : ℤ) < (sortedPanelsOf scenes st).length - 1 then
    { st with
      currentPanelIndex := st.currentPanelIndex + 1
      revealedPanels := insert (st.currentPanelIndex + 1) st.revealedPanels }
  else if isAtLastPanelOf scenes st then
    if isEndingSceneOf choices st then { st with storyEnded := true }
    else
      match normalFlowConnectionOf choices st with
      | some c =>
          changeSceneSmoothly
            { st with
              history := st.history ++
                [{ sceneId := st.currentSceneId
                   panelIndex := st.currentPanelIndex
                   revealedPanels := st.revealedPanels }] }
            c.to_scene_id 0 none
      | none => st
  else st

/-- State after `n` consecutive `goNext()` calls from the initial state. -/
def navSteps (scenes : List RScene) (choices : List RChoice) : ℕ → ReaderState
  | 0 => initState scenes
  | n + 1 => goNext scenes choices (navSteps scenes choices n)

/-- Which screen the reader component renders. -/
inductive ReaderScreen
  | loading
  | noScenes
  | reader
deriving DecidableEq

/-- StoryReader.tsx `isCurrentImageLoaded`: the current scene's `image_url`,
    when the scene exists and the URL is truthy (non-empty), must be in the
    set of preloaded images; a missing scene or falsy URL yields false. -/
def isCurrentImageLoadedOf (scenes : List RScene) (st : ReaderState)
    (loadedImages : Finset String) : Bool :=
  match (currentSceneOf scenes st).map (fun s => s.image_url) with
  | some url => if url == "" then false else decide (url ∈ loadedImages)
  | none => false

/-- StoryReader.tsx render guards (lines 1014-1047), in source order: the
    loading screen while `isLoading || !isCurrentImageLoaded`, then the
    "Bu hikayede henüz sahne yok." screen when the current scene or the
    current panel is missing, otherwise the reader proper. -/
def renderScreen (scenes : List RScene) (st : ReaderState) (isLoading : Bool)
    (loadedImages : Finset String) : ReaderScreen :=
  if isLoading || !(isCurrentImageLoadedOf scenes st loadedImages) then
    ReaderScreen.loading
  else
    match currentSceneOf scenes st, currentPanelOf scenes st with
    | some _, some _ => ReaderScreen.reader
    | _, _ => ReaderScreen.noScenes

/- ===== Reading mode switch (StoryReader.tsx lines 523-535) ===== -/

/-- The two reading modes of the reader. -/
inductive ReadingMode
  | focus
  | panelToPanel
deriving DecidableEq

/-- The revealed-panel sync effect: when the mode is `panel-to-panel`, every
    index `0 ≤ i ≤ currentPanelIndex` is added to the previous revealed set
    (the `for` loop of the effect); otherwise the set is untouched. -/
def syncRevealedPanels (mode : ReadingMode) (currentPanelIndex : ℕ)
    (prev : Finset ℕ) : Finset ℕ :=
  if mode = ReadingMode.panelToPanel then
    (List.range (currentPanelIndex + 1)).foldl (fun s i => insert i s) prev
  else prev

/- ===== Audio volume (StoryReader.tsx lines 541-547, 648-657) ===== -/

/-- StoryReader.tsx `calculateVolume`: 0 when muted, otherwise
    `Math.max(0, Math.min(1, audioVolume * master))`. -/
def calculateVolume (audioVolume : ℚ) (muted : Bool) (master : ℚ) : ℚ :=
  if muted then 0 else max 0 (min 1 (audioVolume * master))

/-- One active audio entry: the stored row volume, the HTML element's applied
    volume, and the fade-out flag (`ActiveAudio` in StoryReader.tsx). -/
structure ActiveAudioModel where
  storedVolume : ℚ
  elementVolume : ℚ
  isFadingOut : Bool
deriving DecidableEq

/-- The volume-update effect (lines 648-657): for every active audio that is
    not fading out, set the element volume to `calculateVolume` of the stored
    volume; the stored volume itself is never written. -/
def applyVolumeUpdate (muted : Bool) (master : ℚ) (a : ActiveAudioModel) : ActiveAudioModel :=
  if a.isFadingOut then a
  else { a with elementVolume := calculateVolume a.storedVolume muted master }

/- ===== Per-language text override resolution =====
   (TextEditor.tsx getEffectiveValues, StoryReader.tsx TextOverlayRenderer) -/

/-- A JS value stored under a style key. -/
inductive JVal
  | num (q : ℚ)
  | str (s : String)
  | boolean (b : Bool)
deriving DecidableEq

/-- A JS object used as a string-keyed map (style objects and the sparse
    `style_override` objects).  Keys are unique in the objects the app builds;
    `List.lookup` takes the first match. -/
abbrev StyleObj := List (String × JVal)

/-- Read a numeric field of an override object (`override.__position_x` etc.;
    the TS interface types these fields as `number`). -/
def lookupNum (o : StyleObj) (k : String) : Option ℚ :=
  match o.lookup k with
  | some (JVal.num q) => some q
  | _ => none

/-- Read a string field of an override object (`override.__bubble_type`). -/
def lookupStr (o : StyleObj) (k : String) : Option String :=
  match o.lookup k with
  | some (JVal.str s) => some s
  | _ => none

/-- `Object.entries(styleOverride).filter(([key]) => !key.startsWith('__'))`:
    the non-positional style keys of an override object. -/
def cleanOverride (o : StyleObj) : StyleObj :=
  o.filter (fun p => !(p.1.startsWith "__"))

/-- JS object spread `{ ...base, ...over }`: entries of `over` shadow `base`
    under first-match `List.lookup`. -/
def spreadMerge (base over : StyleObj) : StyleObj :=
  over ++ base

/-- One `panel_text_contents` row: language, text and nullable sparse override
    object (`LocalTextContent` in TextEditor.tsx). -/
structure TextContentModel where
  language : String
  text : String
  style_override : Option StyleObj
deriving DecidableEq

/-- One `panel_texts` row with its per-language contents (`LocalPanelText` in
    TextEditor.tsx; `width` is nullable in the schema). -/
structure PanelTextModel where
  position_x : ℚ
  position_y : ℚ
  width : Option ℚ
  bubble_type : String
  style : StyleObj
  contents : List TextContentModel
deriving DecidableEq

/-- `text.contents.find(c => c.language === lang)`. -/
def contentFor (t : PanelTextModel) (lang : String) : Option TextContentModel :=
  t.contents.find? (fun c => c.language == lang)

/-- `content?.style_override` as seen from a panel text and a language. -/
def overrideFor (t : PanelTextModel) (lang : String) : Option StyleObj :=
  (contentFor t lang).bind (fun c => c.style_override)

/-- Result of TextEditor.tsx `getEffectiveValues`. -/
structure EffectiveValues where
  position_x : ℚ
  position_y : ℚ
  width : ℚ
  bubble_type : String
  style : StyleObj
deriving DecidableEq

/-- TextEditor.tsx `getEffectiveValues` (lines 180-196):
    `override?.__position_x ?? text.position_x`, likewise for `__position_y`;
    `override?.__width ?? text.width ?? 150`;
    `override?.__bubble_type ?? text.bubble_type`;
    style `{ ...text.style, ...(override ? nonPrefixedEntries : {}) }`. -/
def getEffectiveValues (t : PanelTextModel) (lang : String) : EffectiveValues :=
  let ov := overrideFor t lang
  { position_x := (ov.bind (fun o => lookupNum o "__position_x")).getD t.position_x
    position_y := (ov.bind (fun o => lookupNum o "__position_y")).getD t.position_y
    width := (ov.bind (fun o => lookupNum o "__width")).getD (t.width.getD 150)
    bubble_type := (ov.bind (fun o => lookupStr o "__bubble_type")).getD t.bubble_type
    style := spreadMerge t.style ((ov.map cleanOverride).getD []) }

/-- Values the reader's `TextOverlayRenderer` resolves for one overlay
    (StoryReader.tsx lines 219-243), before the display-only `* scale`
    multiplications. -/
structure ResolvedOverlay where
  posX : ℚ
  posY : ℚ
  width : Option ℚ
  bubbleType : String
  mergedStyle : StyleObj
deriving DecidableEq

/-- StoryReader.tsx `TextOverlayRenderer` resolution:
    `styleOverride = (content?.style_override || {})`;
    `posX/posY = styleOverride.__position_x ?? base`; `width = __width ?? base`
    (result may stay null = CSS auto); `bubbleType = __bubble_type || base`
    (JS `||`, so an empty-string override also falls back);
    `mergedStyle = { ...style, ...cleanOverride }`. -/
def resolveOverlay (t : PanelTextModel) (lang : String) : ResolvedOverlay :=
  let so := (overrideFor t lang).getD []
  { posX := (lookupNum so "__position_x").getD t.position_x
    posY := (lookupNum so "__position_y").getD t.position_y
    width := (lookupNum so "__width").orElse (fun _ => t.width)
    bubbleType :=
      match lookupStr so "__bubble_type" with
      | some s => if s == "" then t.bubble_type else s
      | none => t.bubble_type
    mergedStyle := spreadMerge t.style (cleanOverride so) }

/-- The update payload of TextEditor.tsx `updateTextForLanguage`. -/
structure LangUpdates where
  position_x : Option ℚ
  position_y : Option ℚ
  width : Option ℚ
  bubble_type : Option String
  style : Option StyleObj
deriving DecidableEq

/-- JS property assignment `obj[k] = v` on an object modelled as an
    association list with first-match lookup. -/
def setKey (o : StyleObj) (k : String) (v : JVal) : StyleObj :=
  (k, v) :: o.filter (fun p => !(p.1 == k))

/-- The override construction of `updateTextForLanguage` (unlinked branch):
    start from the existing override (or `{}`), assign the `__`-prefixed
    fields for every supplied update, then assign every supplied style key. -/
def applyUpdatesToOverride (o : StyleObj) (u : LangUpdates) : StyleObj :=
  let o1 := match u.position_x with
    | some q => setKey o "__position_x" (JVal.num q)
    | none => o
  let o2 := match u.position_y with
    | some q => setKey o1 "__position_y" (JVal.num q)
    | none => o1
  let o3 := match u.width with
    | some q => setKey o2 "__width" (JVal.num q)
    | none => o2
  let o4 := match u.bubble_type with
    | some b => setKey o3 "__bubble_type" (JVal.str b)
    | none => o3
  match u.style with
  | some s => s.foldl (fun acc p => setKey acc p.1 p.2) o4
  | none => o4

/-- TextEditor.tsx `updateTextForLanguage` (lines 323-368): in linked mode the
    base fields are updated; otherwise the language's content row gets a
    created/extended override object. -/
def updateTextForLanguage (linkedMode : Bool) (t : PanelTextModel) (lang : String)
    (u : LangUpdates) : PanelTextModel :=
  if linkedMode then
    { t with
      position_x := u.position_x.getD t.position_x
      position_y := u.position_y.getD t.position_y
      width := match u.width with
        | some w => some w
        | none => t.width
      bubble_type := u.bubble_type.getD t.bubble_type
      style := match u.style with
        | some s => spreadMerge t.style s
        | none => t.style }
  else
    { t with
      contents := t.contents.map (fun c =>
        if c.language == lang then
          { c with style_override := some (applyUpdatesToOverride (c.style_override.getD []) u) }
        else c) }

/-- TextEditor.tsx `clearOverrides` (lines 536-549): set the language's
    `style_override` back to null. -/
def clearOverrides (t : PanelTextModel) (lang : String) : PanelTextModel :=
  { t with
    contents := t.contents.map (fun c =>
      if c.language == lang then { c with style_override := none } else c) }

/- ===== Clip-path generation (StoryReader.tsx lines 1050-1084) ===== -/

/-- The four panel shapes. -/
inductive PanelShape
  | rectangle
  | polygon
  | ellipse
  | brush
deriving DecidableEq

/-- A stored polygon vertex. -/
structure ClipPoint where
  x : ℤ
  y : ℤ
deriving DecidableEq

/-- Stored ellipse geometry `{ centerX, centerY, rx, ry }`. -/
structure EllipseData where
  centerX : ℤ
  centerY : ℤ
  rx : ℤ
  ry : ℤ
deriving DecidableEq

/-- The geometric fields of a panel row that `generateClipPath` reads.
    Pixel values are integral here (ℤ); panels carrying brush-stroke data are
    outside this model because the brush branch offsets sample points with a
    floating-point `Math.sqrt` — no claim concerns it.  A brush panel without
    stroke data falls through to the `inset(...)` default exactly as in the
    source. -/
structure GeomPanel where
  x : ℤ
  y : ℤ
  width : ℤ
  height : ℤ
  shape : PanelShape
  points : Option (List ClipPoint)
  ellipse_data : Option EllipseData
deriving DecidableEq

/-- Template fragment `` `${p.x}px ${p.y}px` `` for one polygon vertex. -/
def pxPoint (p : ClipPoint) : String :=
  toString p.x ++ "px " ++ toString p.y ++ "px"

/-- StoryReader.tsx `generateClipPath`: polygon and ellipse branches build the
    CSS strings shown; every other case (rectangle, missing data) produces the
    bounding-box `inset(...)` fallback computed from the scene image size. -/
def generateClipPath (imageWidth imageHeight : ℤ) (panel : GeomPanel) : String :=
  match panel.shape, panel.points, panel.ellipse_data with
  | PanelShape.polygon, some pts, _ =>
      "polygon(" ++ String.intercalate ", " (pts.map pxPoint) ++ ")"
  | PanelShape.ellipse, _, some e =>
      "ellipse(" ++ toString e.rx ++ "px " ++ toString e.ry ++ "px at "
        ++ toString e.centerX ++ "px " ++ toString e.centerY ++ "px)"
  | _, _, _ =>
      "inset(" ++ toString panel.y ++ "px "
        ++ toString (imageWidth - panel.x - panel.width) ++ "px "
        ++ toString (imageHeight - panel.y - panel.height) ++ "px "
        ++ toString panel.x ++ "px)"

/- ===== Reading-order sort (layout.tsx lines 188-201) ===== -/

/-- Reading direction flag of the editor. -/
inductive ReadingDirection
  | ltr
  | rtl
deriving DecidableEq

/-- An editor panel's bounding box (`LocalPanel`; the `index` field the sort
    re-stamps afterwards is omitted, only the order matters here). -/
structure LocalPanel where
  x : ℚ
  y : ℚ
  w : ℚ
  h : ℚ
deriving DecidableEq

/-- The comparator body of `sortPanelsByReadingOrder`: vertical centers within
    the tolerance 50 compare by horizontal center (direction-dependent sign),
    otherwise by vertical center. -/
def cmpReadingOrder (direction : ReadingDirection) (a b : LocalPanel) : ℚ :=
  if |(a.y + a.h / 2) - (b.y + b.h / 2)| < 50 then
    (if direction = ReadingDirection.ltr then (a.x + a.w / 2) - (b.x + b.w / 2)
     else (b.x + b.w / 2) - (a.x + a.w / 2))
  else (a.y + a.h / 2) - (b.y + b.h / 2)

/-- layout.tsx `sortPanelsByReadingOrder`: stable JS sort of the panels under
    `cmpReadingOrder` (the trailing re-indexing map is omitted). -/
def sortPanelsByReadingOrder (panels : List LocalPanel) (direction : ReadingDirection) :
    List LocalPanel :=
  stableSort (fun a b => decide (cmpReadingOrder direction a b ≤ 0)) panels

/-- Modelled from the spec's words, for comparison with the code: the claimed
    relative order of two panels `a` before `b` in the sorted output — same
    row (vertical centers within 50) ordered by horizontal center according to
    the direction, different rows ordered by ascending vertical center. -/
def readingOrderedPair (direction : ReadingDirection) (a b : LocalPanel) : Prop :=
  if |(a.y + a.h / 2) - (b.y + b.h / 2)| < 50 then
    (if direction = ReadingDirection.ltr then a.x + a.w / 2 ≤ b.x + b.w / 2
     else b.x + b.w / 2 ≤ a.x + a.w / 2)
  else a.y + a.h / 2 ≤ b.y + b.h / 2

/- ===== Flow-editor node layout (StoryFlowEditor.tsx lines 177-187) ===== -/

/-- A persisted `scene_positions` row. -/
structure ScenePositionRow where
  scene_id : String
  position_x : ℚ
  position_y : ℚ
deriving DecidableEq

/-- StoryFlowEditor.tsx `getInitialPosition`: the persisted position when one
    exists for the scene, otherwise the default 4-column grid coordinate. -/
def getInitialPosition (positions : List ScenePositionRow) (sceneId : String)
    (index : ℕ) : ℚ × ℚ :=
  match positions.find? (fun p => p.scene_id == sceneId) with
  | some p => (p.position_x, p.position_y)
  | none => (((index % 4 : ℕ) : ℚ) * 280 + 50, ((index / 4 : ℕ) : ℚ) * 220 + 50)

/- ===== Theorems ===== -/

/-- C4: for every stored volume and master volume, the unmuted effective volume
    is exactly `max 0 (min 1 (volume * master))` and always lies in [0, 1];
    muting yields effective volume 0; the volume-update effect never changes
    the stored volume, and on a non-fading element muting drives the applied
    element volume to exactly 0. -/
theorem calculateVolume_spec (v m : ℚ) (muted : Bool) (a : ActiveAudioModel)
    (hfade : a.isFadingOut = false) :
    calculateVolume v false m = max 0 (min 1 (v * m)) ∧
    0 ≤ calculateVolume v muted m ∧
    calculateVolume v muted m ≤ 1 ∧
    calculateVolume v true m = 0 ∧
    (applyVolumeUpdate muted m a).storedVolume = a.storedVolume ∧
    (muted = true → (applyVolumeUpdate muted m a).elementVolume = 0) := by
  refine ⟨rfl, ?_, ?_, rfl, ?_, ?_⟩
  · cases muted with
    | true => simp [calculateVolume]
    | false =>
        simp only [calculateVolume, if_neg (by simp : ¬(false = true))]
        exact le_max_left 0 _
  · cases muted with
    | true => simp [calculateVolume]
    | false =>
        simp only [calculateVolume, if_neg (by simp : ¬(false = true))]
        exact max_le (by norm_num) (min_le_left 1 _)
  · unfold applyVolumeUpdate
    rw [hfade]
    simp
  · intro hm
    subst hm
    unfold applyVolumeUpdate
    rw [hfade]
    simp [calculateVolume]

/-- Witness for C4 at volume 2, master 1/2, on a concrete non-fading element. -/
theorem calculateVolume_spec_witness :
    calculateVolume 2 false (1/2) = max 0 (min 1 (2 * (1/2))) ∧
    0 ≤ calculateVolume 2 true (1/2) ∧
    calculateVolume 2 true (1/2) ≤ 1 ∧
    calculateVolume 2 true (1/2) = 0 ∧
    (applyVolumeUpdate true (1/2) ⟨2, 1, false⟩).storedVolume =
      (⟨2, 1, false⟩ : ActiveAudioModel).storedVolume ∧
    (true = true → (applyVolumeUpdate true (1/2) ⟨2, 1, false⟩).elementVolume = 0) :=
  calculateVolume_spec 2 (1/2) true ⟨2, 1, false⟩ rfl

/-- C7: for every panel of shape ellipse carrying ellipse data, the generated
    clip path is exactly the `ellipse(<rx>px <ry>px at <cx>px <cy>px)` string;
    in particular center (100,100), rx 50, ry 30 gives
    "ellipse(50px 30px at 100px 100px)". -/
theorem generateClipPath_ellipse_spec (iw ih x y w h : ℤ)
    (pts : Option (List ClipPoint)) (e : EllipseData) :
    generateClipPath iw ih ⟨x, y, w, h, PanelShape.ellipse, pts, some e⟩
      = "ellipse(" ++ toString e.rx ++ "px " ++ toString e.ry ++ "px at "
          ++ toString e.centerX ++ "px " ++ toString e.centerY ++ "px)" ∧
    generateClipPath 800 600
        ⟨0, 0, 100, 100, PanelShape.ellipse, none, some ⟨100, 100, 50, 30⟩⟩
      = "ellipse(50px 30px at 100px 100px)" := by
  exact ⟨rfl, by decide⟩

/-- C8: a scene without a persisted position row lands on the default grid
    coordinate `((index % 4) * 280 + 50, (index / 4) * 220 + 50)`; a scene
    with a persisted row lands on that row's coordinates. -/
theorem getInitialPosition_spec (positions : List ScenePositionRow)
    (sceneId : String) (index : ℕ) :
    (positions.find? (fun p => p.scene_id == sceneId) = none →
       getInitialPosition positions sceneId index
         = (((index % 4 : ℕ) : ℚ) * 280 + 50, ((index / 4 : ℕ) : ℚ) * 220 + 50)) ∧
    (∀ p, positions.find? (fun p => p.scene_id == sceneId) = some p →
       getInitialPosition positions sceneId index = (p.position_x, p.position_y)) := by
  constructor
  · intro h
    simp [getInitialPosition, h]
  · intro p h
    simp [getInitialPosition, h]

/-- Witness for C8: no persisted row at index 5, and a persisted row (7, 9). -/
theorem getInitialPosition_spec_witness :
    getInitialPosition [] "a" 5
      = (((5 % 4 : ℕ) : ℚ) * 280 + 50, ((5 / 4 : ℕ) : ℚ) * 220 + 50) ∧
    getInitialPosition [⟨"a", 7, 9⟩] "a" 0 = ((7 : ℚ), (9 : ℚ)) :=
  ⟨(getInitialPosition_spec [] "a" 5).1 rfl,
   (getInitialPosition_spec [⟨"a", 7, 9⟩] "a" 0).2 ⟨"a", 7, 9⟩ rfl⟩

/-- C10: while the choice overlay is up, the story has ended, or a scene
    transition is in flight, `goNext` leaves the whole navigation state
    unchanged. -/
theorem goNext_guard_frame (scenes : List RScene) (choices : List RChoice)
    (st : ReaderState)
    (h : st.showChoices = true ∨ st.storyEnded = true ∨ st.isSceneTransitioning = true) :
    goNext scenes choices st = st := by
  have hguard : (st.showChoices || st.storyEnded || st.isSceneTransitioning) = true := by
    rcases h with h | h | h <;> simp [h]
  unfold goNext
  rw [if_pos hguard]

/-- Witness for C10: a story-ended state is left untouched by `goNext`. -/
theorem goNext_guard_frame_witness :
    goNext [] [] ⟨"a", 3, {0, 1}, [], false, true, false⟩
      = ⟨"a", 3, {0, 1}, [], false, true, false⟩ :=
  goNext_guard_frame [] [] _ (Or.inr (Or.inl rfl))

/-- Membership in a fold of `insert` over a list: exactly the old members plus
    the list's elements. -/
lemma mem_foldl_insert (l : List ℕ) (s : Finset ℕ) (a : ℕ) :
    a ∈ l.foldl (fun acc i => insert i acc) s ↔ a ∈ s ∨ a ∈ l := by
  induction l generalizing s with
  | nil => simp
  | cons x xs ih =>
      simp only [List.foldl_cons, ih, Finset.mem_insert, List.mem_cons]
      tauto

/-- C6: switching into panel-to-panel mode at panel index `k` keeps every
    previously revealed panel and reveals every index `≤ k`. -/
theorem syncRevealedPanels_superset (k : ℕ) (prev : Finset ℕ) :
    prev ⊆ syncRevealedPanels ReadingMode.panelToPanel k prev ∧
    ∀ i, i ≤ k → i ∈ syncRevealedPanels ReadingMode.panelToPanel k prev := by
  constructor
  · intro a ha
    unfold syncRevealedPanels
    rw [if_pos rfl, mem_foldl_insert]
    exact Or.inl ha
  · intro i hi
    unfold syncRevealedPanels
    rw [if_pos rfl, mem_foldl_insert]
    exact Or.inr (List.mem_range.mpr (Nat.lt_succ_of_le hi))

/-- Witness for C6 at index 2 starting from the revealed set {5}. -/
theorem syncRevealedPanels_superset_witness :
    5 ∈ syncRevealedPanels ReadingMode.panelToPanel 2 {5} ∧
    1 ∈ syncRevealedPanels ReadingMode.panelToPanel 2 {5} :=
  ⟨(syncRevealedPanels_superset 2 {5}).1 (Finset.mem_singleton_self 5),
   (syncRevealedPanels_superset 2 {5}).2 1 (by decide)⟩

/-- `List.find?` returns the element at the first position whose flag is set. -/
lemma find?_first_start_scene (l : List RScene) (i : ℕ) (hi : i < l.length)
    (hflag : (l.get ⟨i, hi⟩).is_start_scene = true)
    (hbefore : ∀ j (hj : j < i), (l.get ⟨j, Nat.lt_trans hj hi⟩).is_start_scene = false) :
    l.find? (fun s => s.is_start_scene) = some (l.get ⟨i, hi⟩) := by
  induction l generalizing i with
  | nil => exact absurd hi (Nat.not_lt_zero i)
  | cons s ss ih =>
      cases i with
      | zero =>
          exact List.find?_cons_of_pos _ hflag
      | succ j =>
          have h0 : s.is_start_scene = false := hbefore 0 (Nat.succ_pos j)
          rw [List.find?_cons_of_neg _ (by simp [h0])]
          simp only [List.get_cons_succ] at hflag ⊢
          exact ih j (Nat.lt_of_succ_lt_succ hi) hflag
            (fun m hm => by
              have h := hbefore (m + 1) (Nat.succ_lt_succ hm)
              simpa using h)

/-- Counterexample to C9 as stated: for a story with no scenes the current
    image can never be marked loaded, so even after preloading finishes
    (`isLoading = false`, with any preloaded set) the component renders the
    loading screen forever and never the "no scenes" screen. -/
theorem reader_empty_story_shows_loading :
    renderScreen [] (initState []) false ∅ = ReaderScreen.loading ∧
    ¬ (renderScreen [] (initState []) false ∅ = ReaderScreen.noScenes) := by
  exact ⟨rfl, by decide⟩

/-- C9 (amended): the initial scene is the first scene flagged
    `is_start_scene`, with deterministic fallback to the first scene of the
    list; for a story with no scenes the reader renders the (non-crashing)
    loading screen in every loading state, because no current image can ever
    be marked loaded; once loading is finished and the current scene's image
    is loaded, a current scene with no panels renders the non-crashing
    "no scenes" screen instead of the reader proper. -/
theorem reader_fallback_spec (scenes : List RScene) :
    (∀ (i : ℕ) (hi : i < scenes.length),
       (scenes.get ⟨i, hi⟩).is_start_scene = true →
       (∀ j (hj : j < i), (scenes.get ⟨j, Nat.lt_trans hj hi⟩).is_start_scene = false) →
       startSceneOf scenes = some (scenes.get ⟨i, hi⟩)) ∧
    (scenes.find? (fun s => s.is_start_scene) = none →
       startSceneOf scenes = scenes.head?) ∧
    (scenes = [] → ∀ (isLoading : Bool) (loadedImages : Finset String),
       renderScreen scenes (initState scenes) isLoading loadedImages
         = ReaderScreen.loading) ∧
    (∀ st sc (loadedImages : Finset String),
       currentSceneOf scenes st = some sc →
       isCurrentImageLoadedOf scenes st loadedImages = true →
       sc.panels = [] →
       renderScreen scenes st false loadedImages = ReaderScreen.noScenes) := by
  refine ⟨?_, ?_, ?_, ?_⟩
  · intro i hi hflag hbefore
    unfold startSceneOf
    rw [find?_first_start_scene scenes i hi hflag hbefore]
    rfl
  · intro h
    unfold startSceneOf
    rw [h]
    rfl
  · intro h isLoading loadedImages
    subst h
    have himg : isCurrentImageLoadedOf [] (initState []) loadedImages = false := rfl
    unfold renderScreen
    rw [himg]
    simp
  · intro st sc loadedImages hsc himg hp
    unfold renderScreen
    rw [himg]
    simp [currentPanelOf, sortedPanelsOf, hsc, hp, stableSort]

/-- Witness for C9 (amended): a flagged second scene wins, a flagless story
    falls back to the head, an empty story renders the loading screen even
    with loading finished, and a panel-less scene with its image loaded
    renders the fallback screen. -/
theorem reader_fallback_spec_witness :
    startSceneOf [⟨"x", "ix", false, [⟨"p", 0⟩]⟩, ⟨"y", "iy", true, [⟨"q", 0⟩]⟩]
      = some ⟨"y", "iy", true, [⟨"q", 0⟩]⟩ ∧
    startSceneOf [⟨"z", "iz", false, []⟩] = [(⟨"z", "iz", false, []⟩ : RScene)].head? ∧
    renderScreen [] (initState []) true ∅ = ReaderScreen.loading ∧
    renderScreen [⟨"x", "ix", true, []⟩] (initState [⟨"x", "ix", true, []⟩]) false {"ix"}
      = ReaderScreen.noScenes :=
  ⟨(reader_fallback_spec [⟨"x", "ix", false, [⟨"p", 0⟩]⟩, ⟨"y", "iy", true, [⟨"q", 0⟩]⟩]).1 1
      (by decide) (by decide)
      (fun j hj => by
        have hj0 : j = 0 := Nat.lt_one_iff.mp hj
        subst hj0
        rfl),
   (reader_fallback_spec [⟨"z", "iz", false, []⟩]).2.1 (by decide),
   (reader_fallback_spec []).2.2.1 rfl true ∅,
   (reader_fallback_spec [⟨"x", "ix", true, []⟩]).2.2.2
      (initState [⟨"x", "ix", true, []⟩]) ⟨"x", "ix", true, []⟩ {"ix"}
      (by decide) (by decide) rfl⟩

/-- Every `goNext` call produces one of five state shapes: untouched state,
    choice overlay raised, in-scene advance, story end, or a scene transition
    through some normal-flow choice. -/
lemma goNext_shape (scenes : List RScene) (choices : List RChoice) (st : ReaderState) :
    goNext scenes choices st = st ∨
    goNext scenes choices st = { st with showChoices := true } ∨
    goNext scenes choices st =
      { st with
        currentPanelIndex := st.currentPanelIndex + 1
        revealedPanels := insert (st.currentPanelIndex + 1) st.revealedPanels } ∨
    goNext scenes choices st = { st with storyEnded := true } ∨
    ∃ c : RChoice, goNext scenes choices st =
      { st with
        history := st.history ++
          [{ sceneId := st.currentSceneId
             panelIndex := st.currentPanelIndex
             revealedPanels := st.revealedPanels }]
        currentSceneId := c.to_scene_id
        currentPanelIndex := 0
        revealedPanels := {0}
        isSceneTransitioning := false } := by
  unfold goNext
  split
  · exact Or.inl rfl
  · split
    · exact Or.inr (Or.inl rfl)
    · split
      · exact Or.inr (Or.inr (Or.inl rfl))
      · split
        · split
          · exact Or.inr (Or.inr (Or.inr (Or.inl rfl)))
          · split
            · next c heq => exact Or.inr (Or.inr (Or.inr (Or.inr ⟨c, rfl⟩)))
            · exact Or.inl rfl
        · exact Or.inl rfl

/-- One `goNext` call preserves the invariant that every index up to the
    current panel index is revealed. -/
lemma revealed_superset_step (scenes : List RScene) (choices : List RChoice)
    (st : ReaderState)
    (h : ∀ i, i ≤ st.currentPanelIndex → i ∈ st.revealedPanels) :
    ∀ i, i ≤ (goNext scenes choices st).currentPanelIndex →
      i ∈ (goNext scenes choices st).revealedPanels := by
  rcases goNext_shape scenes choices st with hs | hs | hs | hs | ⟨c, hs⟩ <;> rw [hs]
  · exact h
  · exact h
  · intro i hi
    rcases Nat.eq_or_lt_of_le hi with he | hlt
    · rw [he]
      exact Finset.mem_insert_self _ _
    · exact Finset.mem_insert_of_mem (h i (Nat.lt_succ_iff.mp hlt))
  · exact h
  · intro i hi
    have h0 : i = 0 := Nat.le_zero.mp hi
    rw [h0]
    exact Finset.mem_singleton_self 0

/-- One `goNext` call either only grows the revealed set or resets it to {0}
    (the scene-transition branch). -/
lemma revealed_mono_or_reset (scenes : List RScene) (choices : List RChoice)
    (st : ReaderState) :
    st.revealedPanels ⊆ (goNext scenes choices st).revealedPanels ∨
    (goNext scenes choices st).revealedPanels = {0} := by
  rcases goNext_shape scenes choices st with hs | hs | hs | hs | ⟨c, hs⟩ <;> rw [hs]
  · exact Or.inl (Finset.Subset.refl _)
  · exact Or.inl (Finset.Subset.refl _)
  · exact Or.inl (Finset.subset_insert _ _)
  · exact Or.inl (Finset.Subset.refl _)
  · exact Or.inr rfl

/-- C1 (amended): after any number of `goNext` calls from the initial state
    the revealed set contains every index up to the current panel index, and
    each further call either only grows the revealed set or — exactly in the
    scene-transition case — resets it to {0}. -/
theorem revealed_superset_invariant (scenes : List RScene) (choices : List RChoice)
    (n : ℕ) :
    (∀ i, i ≤ (navSteps scenes choices n).currentPanelIndex →
       i ∈ (navSteps scenes choices n).revealedPanels) ∧
    ((navSteps scenes choices n).revealedPanels
        ⊆ (navSteps scenes choices (n + 1)).revealedPanels ∨
      (navSteps scenes choices (n + 1)).revealedPanels = {0}) := by
  constructor
  · induction n with
    | zero =>
        intro i hi
        have h0 : i = 0 := Nat.le_zero.mp hi
        rw [h0]
        exact Finset.mem_singleton_self 0
    | succ m ih => exact revealed_superset_step scenes choices _ ih
  · exact revealed_mono_or_reset scenes choices _

/-- Counterexample to C1 as stated: in a two-panel scene followed by an
    unconditional choice, the second `goNext` resets the revealed set from
    {0, 1} to {0}, so the revealed set is not monotonically non-decreasing. -/
theorem revealed_not_monotone_example :
    ¬ ((navSteps [⟨"a", "ia", true, [⟨"p0", 0⟩, ⟨"p1", 1⟩]⟩, ⟨"b", "ib", false, [⟨"q0", 0⟩]⟩]
          [⟨"a", "b", none⟩] 1).revealedPanels
        ⊆ (navSteps [⟨"a", "ia", true, [⟨"p0", 0⟩, ⟨"p1", 1⟩]⟩, ⟨"b", "ib", false, [⟨"q0", 0⟩]⟩]
          [⟨"a", "b", none⟩] 2).revealedPanels) := by
  decide

/-- Witness for C1 (amended) after one call in a two-panel scene. -/
theorem revealed_superset_invariant_witness :
    1 ∈ (navSteps [⟨"a", "ia", true, [⟨"p0", 0⟩, ⟨"p1", 1⟩]⟩] [] 1).revealedPanels ∧
    ((navSteps [⟨"a", "ia", true, [⟨"p0", 0⟩, ⟨"p1", 1⟩]⟩] [] 1).revealedPanels
        ⊆ (navSteps [⟨"a", "ia", true, [⟨"p0", 0⟩, ⟨"p1", 1⟩]⟩] [] 2).revealedPanels ∨
      (navSteps [⟨"a", "ia", true, [⟨"p0", 0⟩, ⟨"p1", 1⟩]⟩] [] 2).revealedPanels = {0}) :=
  ⟨(revealed_superset_invariant [⟨"a", "ia", true, [⟨"p0", 0⟩, ⟨"p1", 1⟩]⟩] [] 1).1 1 (by decide),
   (revealed_superset_invariant [⟨"a", "ia", true, [⟨"p0", 0⟩, ⟨"p1", 1⟩]⟩] [] 1).2⟩

/-- A scene with a normal-flow connection is not an ending scene. -/
lemma not_ending_of_normalFlow (choices : List RChoice) (st : ReaderState)
    (c : RChoice) (h : normalFlowConnectionOf choices st = some c) :
    isEndingSceneOf choices st = false := by
  have hc := List.find?_some h
  have hmem := List.mem_of_find?_eq_some h
  rw [Bool.and_eq_true] at hc
  have hfrom : (c.from_scene_id == st.currentSceneId) = true := hc.1
  unfold isEndingSceneOf
  simp only [Bool.not_eq_false', List.any_eq_true]
  exact ⟨c, hmem, hfrom⟩

/-- C2: at the last panel of a non-decision scene, `goNext` either sets the
    terminal story-ended flag (no outgoing choice at all) leaving all other
    navigation state unchanged, or follows the normal-flow choice to its
    target scene with panel index 0 and revealed set {0}. -/
theorem goNext_last_panel_spec (scenes : List RScene) (choices : List RChoice)
    (st : ReaderState)
    (hsc : st.showChoices = false) (hse : st.storyEnded = false)
    (htr : st.isSceneTransitioning = false)
    (hlast : isAtLastPanelOf scenes st = true)
    (hnodec : sceneChoicesOf choices st = []) :
    (isEndingSceneOf choices st = true →
       goNext scenes choices st = { st with storyEnded := true }) ∧
    (∀ c, normalFlowConnectionOf choices st = some c →
       goNext scenes choices st =
         { st with
           history := st.history ++
             [{ sceneId := st.currentSceneId
                panelIndex := st.currentPanelIndex
                revealedPanels := st.revealedPanels }]
           currentSceneId := c.to_scene_id
           currentPanelIndex := 0
           revealedPanels := {0}
           isSceneTransitioning := false }) := by
  have g1 : ¬((st.showChoices || st.storyEnded || st.isSceneTransitioning) = true) := by
    simp [hsc, hse, htr]
  have g2 : ¬(isAtDecisionPointOf scenes choices st = true) := by
    unfold isAtDecisionPointOf
    rw [hnodec]
    simp
  have hlast' : (st.currentPanelIndex : ℤ) = (sortedPanelsOf scenes st).length - 1 :=
    of_decide_eq_true hlast
  have hnotlt : ¬((st.currentPanelIndex : ℤ) < (sortedPanelsOf scenes st).length - 1) := by
    rw [hlast']
    exact lt_irrefl _
  constructor
  · intro hend
    unfold goNext
    rw [if_neg g1, if_neg g2, if_neg hnotlt, if_pos hlast, if_pos hend]
  · intro c hc
    have hnend : ¬(isEndingSceneOf choices st = true) := by
      rw [not_ending_of_normalFlow choices st c hc]
      exact Bool.false_ne_true
    unfold goNext
    rw [if_neg g1, if_neg g2, if_neg hnotlt, if_pos hlast, if_neg hnend, hc]
    rfl

/-- Witness for C2: a single-panel ending scene ends the story; a single-panel
    scene with an unconditional choice moves to the target scene at panel 0
    with revealed set {0}. -/
theorem goNext_last_panel_spec_witness :
    goNext [⟨"a", "ia", true, [⟨"p0", 0⟩]⟩] [] (initState [⟨"a", "ia", true, [⟨"p0", 0⟩]⟩])
      = ⟨"a", 0, {0}, [], false, true, false⟩ ∧
    goNext [⟨"a", "ia", true, [⟨"p0", 0⟩]⟩, ⟨"b", "ib", false, [⟨"q0", 0⟩]⟩] [⟨"a", "b", none⟩]
        (initState [⟨"a", "ia", true, [⟨"p0", 0⟩]⟩, ⟨"b", "ib", false, [⟨"q0", 0⟩]⟩])
      = ⟨"b", 0, {0}, [⟨"a", 0, {0}⟩], false, false, false⟩ :=
  ⟨(goNext_last_panel_spec [⟨"a", "ia", true, [⟨"p0", 0⟩]⟩] []
      (initState [⟨"a", "ia", true, [⟨"p0", 0⟩]⟩]) rfl rfl rfl (by decide) rfl).1 (by decide),
   (goNext_last_panel_spec [⟨"a", "ia", true, [⟨"p0", 0⟩]⟩, ⟨"b", "ib", false, [⟨"q0", 0⟩]⟩]
      [⟨"a", "b", none⟩]
      (initState [⟨"a", "ia", true, [⟨"p0", 0⟩]⟩, ⟨"b", "ib", false, [⟨"q0", 0⟩]⟩])
      rfl rfl rfl (by decide) (by decide)).2 ⟨"a", "b", none⟩ (by decide)⟩

/-- Inserting an element permutes to consing it. -/
lemma stableInsert_perm {α : Type} (le : α → α → Bool) (x : α) (l : List α) :
    (stableInsert le x l).Perm (x :: l) := by
  induction l with
  | nil => exact List.Perm.refl _
  | cons y ys ih =>
      unfold stableInsert
      split
      · exact List.Perm.refl _
      · exact (ih.cons y).trans (List.Perm.swap x y ys)

/-- The stable sort permutes its input. -/
lemma stableSort_perm {α : Type} (le : α → α → Bool) (l : List α) :
    (stableSort le l).Perm l := by
  induction l with
  | nil => exact List.Perm.refl _
  | cons x xs ih => exact (stableInsert_perm le x (stableSort le xs)).trans (ih.cons x)

/-- Inserting into a `le`-pairwise list preserves pairwiseness, provided `le`
    is total and transitive on the elements involved. -/
lemma pairwise_stableInsert {α : Type} (le : α → α → Bool) (x : α) :
    ∀ l : List α,
      (∀ a ∈ x :: l, ∀ b ∈ x :: l, le a b = true ∨ le b a = true) →
      (∀ a ∈ x :: l, ∀ b ∈ x :: l, ∀ c ∈ x :: l,
        le a b = true → le b c = true → le a c = true) →
      l.Pairwise (fun a b => le a b = true) →
      (stableInsert le x l).Pairwise (fun a b => le a b = true) := by
  intro l
  induction l with
  | nil =>
      intro _ _ _
      simp [stableInsert]
  | cons y ys ih =>
      intro htot htrans hl
      rw [List.pairwise_cons] at hl
      obtain ⟨hy, hys⟩ := hl
      have hmemx : x ∈ x :: y :: ys := List.mem_cons_self _ _
      have hmemy : y ∈ x :: y :: ys := List.mem_cons_of_mem _ (List.mem_cons_self _ _)
      have hsub : ∀ a, a ∈ x :: ys → a ∈ x :: y :: ys := by
        intro a ha
        rcases List.mem_cons.mp ha with rfl | h
        · exact List.mem_cons_self _ _
        · exact List.mem_cons_of_mem _ (List.mem_cons_of_mem _ h)
      unfold stableInsert
      split
      case isTrue hxy =>
        rw [List.pairwise_cons]
        constructor
        · intro b hb
          rcases List.mem_cons.mp hb with rfl | hb'
          · exact hxy
          · exact htrans x hmemx y hmemy b
              (List.mem_cons_of_mem _ (List.mem_cons_of_mem _ hb')) hxy (hy b hb')
        · rw [List.pairwise_cons]
          exact ⟨hy, hys⟩
      case isFalse hxy =>
        rw [List.pairwise_cons]
        constructor
        · intro b hb
          have hb' : b ∈ x :: ys := (stableInsert_perm le x ys).mem_iff.mp hb
          rcases List.mem_cons.mp hb' with hbx | hbys
          · rw [hbx]
            rcases htot x hmemx y hmemy with h | h
            · exact absurd h hxy
            · exact h
          · exact hy b hbys
        · exact ih
            (fun a ha b hb => htot a (hsub a ha) b (hsub b hb))
            (fun a ha b hb c hc h1 h2 =>
              htrans a (hsub a ha) b (hsub b hb) c (hsub c hc) h1 h2)
            hys

/-- The stable sort is pairwise `le`-ordered when `le` is total and transitive
    on the input's elements. -/
lemma pairwise_stableSort {α : Type} (le : α → α → Bool) :
    ∀ l : List α,
      (∀ a ∈ l, ∀ b ∈ l, le a b = true ∨ le b a = true) →
      (∀ a ∈ l, ∀ b ∈ l, ∀ c ∈ l, le a b = true → le b c = true → le a c = true) →
      (stableSort le l).Pairwise (fun a b => le a b = true) := by
  intro l
  induction l with
  | nil =>
      intro _ _
      simp [stableSort]
  | cons x xs ih =>
      intro htot htrans
      have hperm := stableSort_perm le xs
      have hmem : ∀ a, a ∈ x :: stableSort le xs → a ∈ x :: xs := by
        intro a ha
        rcases List.mem_cons.mp ha with rfl | h
        · exact List.mem_cons_self _ _
        · exact List.mem_cons_of_mem _ (hperm.mem_iff.mp h)
      show (stableInsert le x (stableSort le xs)).Pairwise _
      exact pairwise_stableInsert le x (stableSort le xs)
        (fun a ha b hb => htot a (hmem a ha) b (hmem b hb))
        (fun a ha b hb c hc h1 h2 =>
          htrans a (hmem a ha) b (hmem b hb) c (hmem c hc) h1 h2)
        (ih
          (fun a ha b hb =>
            htot a (List.mem_cons_of_mem _ ha) b (List.mem_cons_of_mem _ hb))
          (fun a ha b hb c hc h1 h2 =>
            htrans a (List.mem_cons_of_mem _ ha) b (List.mem_cons_of_mem _ hb)
              c (List.mem_cons_of_mem _ hc) h1 h2))

/-- Swapping the arguments of the reading-order comparator flips its sign,
    like any JS difference comparator. -/
lemma cmpReadingOrder_neg (d : ReadingDirection) (a b : LocalPanel) :
    cmpReadingOrder d b a = -cmpReadingOrder d a b := by
  unfold cmpReadingOrder
  rw [abs_sub_comm (b.y + b.h / 2) (a.y + a.h / 2)]
  split_ifs <;> ring

/-- The spec's pairwise reading order is exactly a non-positive comparator
    value. -/
lemma readingOrderedPair_iff (d : ReadingDirection) (a b : LocalPanel) :
    readingOrderedPair d a b ↔ cmpReadingOrder d a b ≤ 0 := by
  unfold readingOrderedPair cmpReadingOrder
  split_ifs <;> constructor <;> intro h <;> linarith

/-- C5 (amended): the reading-order sort permutes its input, and whenever the
    comparator is transitive on the input's panels (in particular whenever the
    same-row relation does not chain across the 50-unit tolerance), every two
    output panels are ordered as the spec describes. -/
theorem sortPanels_sorted_of_transitive (direction : ReadingDirection)
    (l : List LocalPanel)
    (htrans : ∀ a ∈ l, ∀ b ∈ l, ∀ c ∈ l,
       cmpReadingOrder direction a b ≤ 0 → cmpReadingOrder direction b c ≤ 0 →
       cmpReadingOrder direction a c ≤ 0) :
    (sortPanelsByReadingOrder l direction).Perm l ∧
    (sortPanelsByReadingOrder l direction).Pairwise (readingOrderedPair direction) := by
  constructor
  · exact stableSort_perm _ l
  · have hp := pairwise_stableSort
      (fun a b => decide (cmpReadingOrder direction a b ≤ 0)) l
      (fun a _ b _ => by
        rcases le_total (cmpReadingOrder direction a b) 0 with h | h
        · exact Or.inl (decide_eq_true h)
        · refine Or.inr (decide_eq_true ?_)
          rw [cmpReadingOrder_neg]
          linarith)
      (fun a ha b hb c hc h1 h2 =>
        decide_eq_true
          (htrans a ha b hb c hc (of_decide_eq_true h1) (of_decide_eq_true h2)))
    exact hp.imp
      (fun h => (readingOrderedPair_iff direction _ _).mpr (of_decide_eq_true h))

/-- Counterexample to C5 as stated: with panels A(center 10,45), B(center
    20,0), C(center 0,60) the comparator is cyclic (A before B by x, B before
    C by y, C before A by x), the sort returns [A, B, C], and the pair (A, C)
    violates the claimed same-row x-ordering. -/
theorem sortPanels_pairwise_claim_false :
    ¬ (sortPanelsByReadingOrder [⟨10, 45, 0, 0⟩, ⟨20, 0, 0, 0⟩, ⟨0, 60, 0, 0⟩]
         ReadingDirection.ltr).Pairwise (readingOrderedPair ReadingDirection.ltr) := by
  have hs : sortPanelsByReadingOrder [⟨10, 45, 0, 0⟩, ⟨20, 0, 0, 0⟩, ⟨0, 60, 0, 0⟩]
      ReadingDirection.ltr = [⟨10, 45, 0, 0⟩, ⟨20, 0, 0, 0⟩, ⟨0, 60, 0, 0⟩] := by
    norm_num [sortPanelsByReadingOrder, stableSort, stableInsert, cmpReadingOrder, abs_lt]
  intro hpw
  rw [hs, List.pairwise_cons] at hpw
  have hAC := hpw.1 ⟨0, 60, 0, 0⟩ (by simp)
  rw [readingOrderedPair_iff] at hAC
  norm_num [cmpReadingOrder, abs_lt] at hAC

/-- Witness for C5 (amended) on a singleton panel list, where the comparator
    is trivially transitive. -/
theorem sortPanels_sorted_of_transitive_witness :
    (sortPanelsByReadingOrder [⟨1, 2, 3, 4⟩] ReadingDirection.ltr).Perm
      [(⟨1, 2, 3, 4⟩ : LocalPanel)] ∧
    (sortPanelsByReadingOrder [⟨1, 2, 3, 4⟩] ReadingDirection.ltr).Pairwise
      (readingOrderedPair ReadingDirection.ltr) :=
  sortPanels_sorted_of_transitive ReadingDirection.ltr [⟨1, 2, 3, 4⟩]
    (fun a ha b hb c hc h1 h2 => by
      simp only [List.mem_singleton] at ha hb hc
      subst ha
      subst hb
      subst hc
      exact h1)

/-- Mapping a language-preserving update over the contents commutes with
    looking up a language's content row. -/
lemma find?_map_language (l : List TextContentModel) (lang : String)
    (f : TextContentModel → TextContentModel)
    (hf : ∀ c, (f c).language = c.language) :
    (l.map (fun c => if c.language == lang then f c else c)).find?
        (fun c => c.language == lang)
      = (l.find? (fun c => c.language == lang)).map f := by
  induction l with
  | nil => rfl
  | cons c cs ih =>
      by_cases h : (c.language == lang) = true
      · have h1 : ((f c).language == lang) = true := by rw [hf]; exact h
        calc ((c :: cs).map (fun c => if c.language == lang then f c else c)).find?
                (fun c => c.language == lang)
            = (f c :: cs.map (fun c => if c.language == lang then f c else c)).find?
                (fun c => c.language == lang) := by rw [List.map_cons, if_pos h]
          _ = some (f c) := List.find?_cons_of_pos _ h1
          _ = ((c :: cs).find? (fun c => c.language == lang)).map f := by
                rw [@List.find?_cons_of_pos _ (fun c => c.language == lang) c cs h]
                rfl
      · calc ((c :: cs).map (fun c => if c.language == lang then f c else c)).find?
                (fun c => c.language == lang)
            = (c :: cs.map (fun c => if c.language == lang then f c else c)).find?
                (fun c => c.language == lang) := by rw [List.map_cons, if_neg h]
          _ = (cs.map (fun c => if c.language == lang then f c else c)).find?
                (fun c => c.language == lang) := List.find?_cons_of_neg _ h
          _ = (cs.find? (fun c => c.language == lang)).map f := ih
          _ = ((c :: cs).find? (fun c => c.language == lang)).map f := by
                rw [@List.find?_cons_of_neg _ (fun c => c.language == lang) c cs h]

/-- After `clearOverrides` the language has no override object. -/
lemma overrideFor_clearOverrides (t : PanelTextModel) (lang : String) :
    overrideFor (clearOverrides t lang) lang = none := by
  have hcf : contentFor (clearOverrides t lang) lang
      = (t.contents.find? (fun c => c.language == lang)).map
          (fun c => { c with style_override := none }) := by
    show (t.contents.map
          (fun c => if c.language == lang then { c with style_override := none } else c)).find?
        (fun c => c.language == lang)
      = (t.contents.find? (fun c => c.language == lang)).map
          (fun c => { c with style_override := none })
    exact find?_map_language t.contents lang _ (fun c => rfl)
  unfold overrideFor
  rw [hcf]
  cases t.contents.find? (fun c => c.language == lang) <;> rfl

/-- With a null or empty override object, the editor's effective values are
    the base values (width falling back to the literal default 150 only when
    the base itself is null). -/
lemma getEffectiveValues_no_override (t : PanelTextModel) (lang : String)
    (h : overrideFor t lang = none ∨ overrideFor t lang = some []) :
    getEffectiveValues t lang =
      { position_x := t.position_x
        position_y := t.position_y
        width := t.width.getD 150
        bubble_type := t.bubble_type
        style := t.style } := by
  rcases h with h | h <;>
    (unfold getEffectiveValues; rw [h]; rfl)

/-- With a null or empty override object, the reader's resolved overlay values
    are the base values. -/
lemma resolveOverlay_no_override (t : PanelTextModel) (lang : String)
    (h : overrideFor t lang = none ∨ overrideFor t lang = some []) :
    resolveOverlay t lang =
      { posX := t.position_x
        posY := t.position_y
        width := t.width
        bubbleType := t.bubble_type
        mergedStyle := t.style } := by
  rcases h with h | h <;>
    (unfold resolveOverlay; rw [h]; rfl)

/-- C3: with a null or empty per-language override object both resolvers
    (editor `getEffectiveValues` and reader `TextOverlayRenderer`) return the
    panel text's base position, width, bubble type and every style key
    unchanged; and applying a per-language override and then clearing it
    restores exactly the never-overridden effective values. -/
theorem textOverride_empty_and_roundtrip (t : PanelTextModel) (lang k : String)
    (w : ℚ) (u : LangUpdates)
    (hov : overrideFor t lang = none ∨ overrideFor t lang = some [])
    (hw : t.width = some w) :
    (getEffectiveValues t lang).position_x = t.position_x ∧
    (getEffectiveValues t lang).position_y = t.position_y ∧
    (getEffectiveValues t lang).width = w ∧
    (getEffectiveValues t lang).bubble_type = t.bubble_type ∧
    (getEffectiveValues t lang).style.lookup k = t.style.lookup k ∧
    (resolveOverlay t lang).posX = t.position_x ∧
    (resolveOverlay t lang).posY = t.position_y ∧
    (resolveOverlay t lang).width = t.width ∧
    (resolveOverlay t lang).bubbleType = t.bubble_type ∧
    (resolveOverlay t lang).mergedStyle.lookup k = t.style.lookup k ∧
    getEffectiveValues (clearOverrides (updateTextForLanguage false t lang u) lang) lang
      = getEffectiveValues t lang ∧
    resolveOverlay (clearOverrides (updateTextForLanguage false t lang u) lang) lang
      = resolveOverlay t lang := by
  have he := getEffectiveValues_no_override t lang hov
  have hr := resolveOverlay_no_override t lang hov
  have hcl : overrideFor (clearOverrides (updateTextForLanguage false t lang u) lang) lang
      = none := overrideFor_clearOverrides _ lang
  refine ⟨?_, ?_, ?_, ?_, ?_, ?_, ?_, ?_, ?_, ?_, ?_, ?_⟩
  · rw [he]
  · rw [he]
  · rw [he, hw]
    rfl
  · rw [he]
  · rw [he]
  · rw [hr]
  · rw [hr]
  · rw [hr]
  · rw [hr]
  · rw [hr]
  · rw [getEffectiveValues_no_override _ lang (Or.inl hcl), he]
    rfl
  · rw [resolveOverlay_no_override _ lang (Or.inl hcl), hr]
    rfl

/-- Witness for C3 on a concrete panel text with one English content row and
    a position/style update payload. -/
theorem textOverride_empty_and_roundtrip_witness :
    (getEffectiveValues
        ⟨10, 20, some 150, "speech", [("fontSize", JVal.num 16)], [⟨"en", "Hi", none⟩]⟩
        "en").width = 150 ∧
    getEffectiveValues
        (clearOverrides
          (updateTextForLanguage false
            ⟨10, 20, some 150, "speech", [("fontSize", JVal.num 16)], [⟨"en", "Hi", none⟩]⟩
            "en" ⟨some 99, none, none, none, some [("color", JVal.str "red")]⟩)
          "en")
        "en"
      = getEffectiveValues
          ⟨10, 20, some 150, "speech", [("fontSize", JVal.num 16)], [⟨"en", "Hi", none⟩]⟩
          "en" := by
  have h := textOverride_empty_and_roundtrip
    ⟨10, 20, some 150, "speech", [("fontSize", JVal.num 16)], [⟨"en", "Hi", none⟩]⟩
    "en" "fontSize" 150 ⟨some 99, none, none, none, some [("color", JVal.str "red")]⟩
    (Or.inl rfl) rfl
  exact ⟨h.2.2.1, h.2.2.2.2.2.2.2.2.2.2.1⟩

end InStory
